import Mathlib

/-!
Shallow embedding of the grubwala/vendor-inventory-tracker core:
the movement ledger (src/hooks/useStock.ts), the audit recorder
(src/hooks/useAudit.ts), the dashboard visibility filters and form
submission (src/components/InventoryDashboard.tsx), and the
orchestration in src/App.tsx.  JavaScript numbers are idealised as
exact rationals; the non-finite values relevant to validation are
modelled explicitly by the JsNumber type.
-/

namespace VendorInventory

abbrev ID := String

/-- Movement kind, from the union type `'IN' | 'OUT' | 'ADJUST'` in src/types.ts. -/
inductive MovementType
  | IN
  | OUT
  | ADJUST
deriving DecidableEq, Repr

/-- StockRow from src/types.ts: one ledger entry; `chefId = none` means warehouse. -/
structure StockRow where
  id : ID
  itemId : ID
  vendorId : Option ID
  type : MovementType
  quantity : ℚ
  unitCost : Option ℚ
  timestamp : String
  note : Option String
  chefId : Option ID
deriving DecidableEq, Repr

/-- The sign used by the fold in useStock.ts:
`mv.type === 'IN' ? 1 : mv.type === 'OUT' ? -1 : 0`. -/
def sign : MovementType → ℚ
  | .IN => 1
  | .OUT => -1
  | .ADJUST => 0

/-- Key of a movement in the on-hand map, from useStock.ts:
`const chefKey = mv.chefId ?? 'warehouse'; const key = chefKey::itemId`. -/
def movementKey (mv : StockRow) : String :=
  mv.chefId.getD "warehouse" ++ "::" ++ mv.itemId

/-- Key built by getOnHand for a query, from useStock.ts:
`const key = (chefId ?? 'warehouse')::itemId`. -/
def queryKey (itemId : ID) (chefId : Option ID) : String :=
  chefId.getD "warehouse" ++ "::" ++ itemId

/-- A movement matches an (itemId, owner) key when its ledger key equals
the query key built from that pair. -/
def matchesKey (mv : StockRow) (itemId : ID) (chefId : Option ID) : Bool :=
  movementKey mv == queryKey itemId chefId

/-- The Map of useStock.ts, modelled as a partial function from keys. -/
abbrev KeyMap := String → Option ℚ

def mapSet (m : KeyMap) (k : String) (v : ℚ) : KeyMap :=
  fun k2 => if k2 = k then some v else m k2

/-- One step of the fold in useStock.ts:
`map.set(key, (map.get(key) ?? 0) + sign * mv.quantity)`. -/
def foldStep (m : KeyMap) (mv : StockRow) : KeyMap :=
  mapSet m (movementKey mv) ((m (movementKey mv)).getD 0 + sign mv.type * mv.quantity)

/-- onHandByKey from useStock.ts: the fold over the movement list. -/
def onHandByKey (movements : List StockRow) : KeyMap :=
  movements.foldl foldStep (fun _ => none)

/-- getOnHand from useStock.ts: `onHandByKey.get(key) ?? 0`. -/
def getOnHand (movements : List StockRow) (itemId : ID) (chefId : Option ID) : ℚ :=
  (onHandByKey movements (queryKey itemId chefId)).getD 0

/-- getChefInventory from useStock.ts. -/
def getChefInventory (movements : List StockRow) (chefId : Option ID) : List StockRow :=
  movements.filter (fun mv => mv.chefId == chefId)

/-- MovementInput = Omit of StockRow without id and timestamp (useStock.ts). -/
structure MovementInput where
  itemId : ID
  vendorId : Option ID
  type : MovementType
  quantity : ℚ
  unitCost : Option ℚ
  note : Option String
  chefId : Option ID
deriving DecidableEq, Repr

/-- addMovement from useStock.ts: builds the new row with a fresh id and a
timestamp and prepends it; no validation is performed. -/
def addMovement (freshId ts : String) (movement : MovementInput)
    (prev : List StockRow) : StockRow × List StockRow :=
  let next : StockRow :=
    { id := freshId
      itemId := movement.itemId
      vendorId := movement.vendorId
      type := movement.type
      quantity := movement.quantity
      unitCost := movement.unitCost
      timestamp := ts
      note := movement.note
      chefId := movement.chefId }
  (next, next :: prev)

/-- The signed quantity a movement contributes to its own key. -/
def signedQty (mv : StockRow) : ℚ := sign mv.type * mv.quantity

/-- A chef id that cannot collide with the warehouse encoding of the
on-hand keys: not the literal string "warehouse" and containing no colon
character. -/
def SafeChefId (c : String) : Prop :=
  c ≠ "warehouse" ∧ ∀ ch ∈ c.data, ch ≠ ':'

instance (c : String) : Decidable (SafeChefId c) := by
  unfold SafeChefId
  exact inferInstance

/-- Role from src/types.ts: `'Founder' | 'Home Chef'`. -/
inductive Role
  | Founder
  | HomeChef
deriving DecidableEq, Repr

/-- Profile from src/types.ts; `role` may be null, `chefId` may be null. -/
structure Profile where
  id : ID
  email : String
  name : String
  role : Option Role
  chefId : Option ID
deriving DecidableEq, Repr

/-- Audit scope from src/types.ts: `'founder' | 'chef'`. -/
inductive Scope
  | founder
  | chef
deriving DecidableEq, Repr

/-- AuditEntry from src/types.ts (the display-only `meta` record is not
modelled). -/
structure AuditEntry where
  id : ID
  actor : ID
  action : String
  timestamp : String
  scope : Scope
  chefId : Option ID
  refId : Option ID
deriving DecidableEq, Repr

/-- Input to useAudit's log: an AuditEntry without id and timestamp. -/
structure AuditInput where
  actor : ID
  action : String
  scope : Scope
  chefId : Option ID
  refId : Option ID
deriving DecidableEq, Repr

/-- log from src/hooks/useAudit.ts: builds the entry with fresh id and
timestamp and prepends it. -/
def log (freshId ts : String) (entry : AuditInput) (prev : List AuditEntry) :
    AuditEntry × List AuditEntry :=
  let next : AuditEntry :=
    { id := freshId
      actor := entry.actor
      action := entry.action
      timestamp := ts
      scope := entry.scope
      chefId := entry.chefId
      refId := entry.refId }
  (next, next :: prev)

/-- JavaScript truthiness of a `string | null` value: null and the empty
string are falsy. -/
def isTruthy : Option String → Bool
  | none => false
  | some s => s != ""

/-- The audit action tag built in App.tsx:
`stock.${payload.type.toLowerCase()}`. -/
def movementAction : MovementType → String
  | .IN => "stock.in"
  | .OUT => "stock.out"
  | .ADJUST => "stock.adjust"

/-- Combined movement-ledger plus audit-log state held by App.tsx. -/
structure AppState where
  movements : List StockRow
  audit : List AuditEntry
deriving DecidableEq, Repr

/-- handleRecordMovement from src/App.tsx: throws when the profile is not
ready, otherwise appends one movement and logs one audit entry whose refId
is the new movement's id.  Fresh ids and timestamps are passed explicitly
in place of genId and the clock. -/
def handleRecordMovement (profile : Option Profile) (mvId mvTs auId auTs : String)
    (payload : MovementInput) (st : AppState) : Except String AppState :=
  match profile with
  | none => .error "Profile not ready yet."
  | some p =>
    let stocked := addMovement mvId mvTs payload st.movements
    let entry : AuditInput :=
      { actor := p.id
        action := movementAction payload.type
        scope := if isTruthy payload.chefId then Scope.chef else Scope.founder
        chefId := payload.chefId
        refId := some stocked.1.id }
    let logged := log auId auTs entry st.audit
    .ok { movements := stocked.2, audit := logged.2 }

/-- visibleMovements from InventoryDashboard: Founder sees all; a non-Founder
with a falsy chefId sees warehouse rows; otherwise rows owned by that chef. -/
def visibleMovements (profile : Profile) (movements : List StockRow) : List StockRow :=
  if profile.role = some Role.Founder then movements
  else if !(isTruthy profile.chefId) then movements.filter (fun mv => mv.chefId == none)
  else movements.filter (fun mv => mv.chefId == profile.chefId)

/-- visibleAudit from InventoryDashboard: Founder sees all; a non-Founder
with a falsy chefId sees founder-scope entries; otherwise entries whose
chefId is their own or whose scope is founder. -/
def visibleAudit (profile : Profile) (audit : List AuditEntry) : List AuditEntry :=
  if profile.role = some Role.Founder then audit
  else if !(isTruthy profile.chefId) then audit.filter (fun e => e.scope == Scope.founder)
  else audit.filter (fun e => e.chefId == profile.chefId || e.scope == Scope.founder)

/-- A JavaScript number as seen by the validation in handleSubmit: either a
finite rational or one of the non-finite values. -/
inductive JsNumber
  | val (q : ℚ)
  | nan
  | posInf
  | negInf
deriving DecidableEq, Repr

/-- Number.isFinite. -/
def JsNumber.isFinite : JsNumber → Bool
  | .val _ => true
  | _ => false

/-- The JavaScript comparison `q <= 0` (false on NaN). -/
def JsNumber.leZero : JsNumber → Bool
  | .val q => decide (q ≤ 0)
  | .nan => false
  | .posInf => false
  | .negInf => true

/-- The rational carried by a finite JsNumber. -/
def JsNumber.toRat : JsNumber → ℚ
  | .val q => q
  | _ => 0

/-- MovementFormState from InventoryDashboard; `owner` is a chef id or the
literal "warehouse", `itemId` and `vendorId` are ids or "" when unselected,
and `quantity` models the result of `Number(form.quantity)`. -/
structure MovementFormState where
  owner : String
  itemId : String
  vendorId : String
  type : MovementType
  quantity : JsNumber
  note : String
deriving DecidableEq, Repr

/-- handleSubmit from InventoryDashboard composed with onRecordMovement
(App.tsx handleRecordMovement).  Returns the new state together with the
form error message, if any; a rejected submission leaves the state
untouched. -/
def handleSubmit (profile : Option Profile) (mvId mvTs auId auTs : String)
    (form : MovementFormState) (st : AppState) : AppState × Option String :=
  if form.itemId = "" then
    (st, some "Select a container.")
  else
    let quantity := form.quantity
    if !quantity.isFinite || quantity.leZero then
      (st, some "Quantity must be a positive number.")
    else
      let payload : MovementInput :=
        { itemId := form.itemId
          vendorId := if form.vendorId = "" then none else some form.vendorId
          type := form.type
          quantity := quantity.toRat
          unitCost := none
          note := if form.note.trim = "" then none else some form.note.trim
          chefId := if form.owner = "warehouse" then none else some form.owner }
      match handleRecordMovement profile mvId mvTs auId auTs payload st with
      | .ok st2 => (st2, none)
      | .error e => (st, some e)

/-- One successful movement-recording operation: the fresh identifiers and
the payload handed to handleRecordMovement. -/
structure RecordOp where
  mvId : String
  mvTs : String
  auId : String
  auTs : String
  payload : MovementInput
deriving DecidableEq, Repr

/-- Replay of a sequence of recordMovement calls by a fixed profile. -/
def replay (p : Profile) (ops : List RecordOp) (st : AppState) : AppState :=
  ops.foldl
    (fun s op =>
      match handleRecordMovement (some p) op.mvId op.mvTs op.auId op.auTs op.payload s with
      | .ok s2 => s2
      | .error _ => s)
    st

/-! ### Sample data used by witnesses and counterexamples -/

/-- A warehouse (owner-null) IN movement, mirroring the seed data in App.tsx. -/
def rowW : StockRow :=
  { id := "mv_warehouse_seed", itemId := "cnt_200ml", vendorId := some "vendor_alpha",
    type := .IN, quantity := 120, unitCost := none,
    timestamp := "2024-02-01T10:00:00Z", note := none, chefId := none }

/-- A movement owned by chef_a. -/
def rowA : StockRow :=
  { id := "mv_ship_aabha", itemId := "cnt_200ml", vendorId := some "vendor_alpha",
    type := .OUT, quantity := 30, unitCost := none,
    timestamp := "2024-02-02T10:00:00Z", note := none, chefId := some "chef_a" }

/-- A movement owned by chef_b. -/
def rowB : StockRow :=
  { id := "mv_b", itemId := "cnt_200ml", vendorId := none,
    type := .IN, quantity := 4, unitCost := none,
    timestamp := "2024-02-03T10:00:00Z", note := none, chefId := some "chef_b" }

/-- A warehouse IN movement of 10 for item x. -/
def seedIn : StockRow :=
  { id := "s1", itemId := "x", vendorId := none, type := .IN, quantity := 10,
    unitCost := none, timestamp := "t0", note := none, chefId := none }

/-- An OUT payload of 100 for item x at the warehouse. -/
def outBig : MovementInput :=
  { itemId := "x", vendorId := none, type := .OUT, quantity := 100,
    unitCost := none, note := none, chefId := none }

/-- A movement payload with a non-positive quantity. -/
def badInput : MovementInput :=
  { itemId := "cnt_100ml", vendorId := none, type := .OUT, quantity := -5,
    unitCost := none, note := none, chefId := none }

/-- A form whose parsed quantity is NaN. -/
def badForm : MovementFormState :=
  { owner := "warehouse", itemId := "cnt_100ml", vendorId := "",
    type := .IN, quantity := .nan, note := "" }

/-- A founder-scope audit entry. -/
def entF : AuditEntry :=
  { id := "a1", actor := "founder1", action := "catalog.item.create",
    timestamp := "t1", scope := .founder, chefId := none, refId := none }

/-- An audit entry scoped to chef_a. -/
def entA : AuditEntry :=
  { id := "a2", actor := "u2", action := "stock.out",
    timestamp := "t2", scope := .chef, chefId := some "chef_a", refId := some "mv2" }

/-- An audit entry scoped to chef_b. -/
def entB : AuditEntry :=
  { id := "a3", actor := "u3", action := "stock.in",
    timestamp := "t3", scope := .chef, chefId := some "chef_b", refId := some "mv3" }

/-! ### Helper lemmas -/

lemma foldStep_apply_eq (m : KeyMap) (mv : StockRow) :
    foldStep m mv (movementKey mv)
      = some ((m (movementKey mv)).getD 0 + signedQty mv) := by
  simp [foldStep, mapSet, signedQty]

lemma foldStep_apply_ne (m : KeyMap) (mv : StockRow) (k : String)
    (h : movementKey mv ≠ k) : foldStep m mv k = m k := by
  simp [foldStep, mapSet, Ne.symm h]

lemma foldl_foldStep_getD (l : List StockRow) (m : KeyMap) (k : String) :
    ((l.foldl foldStep m) k).getD 0
      = (m k).getD 0 + ((l.filter (fun mv => movementKey mv == k)).map signedQty).sum := by
  induction l generalizing m with
  | nil => simp
  | cons mv t ih =>
    rw [List.foldl_cons, ih]
    by_cases h : movementKey mv = k
    · subst h
      rw [foldStep_apply_eq]
      simp [signedQty]
      ring
    · rw [foldStep_apply_ne m mv k h]
      simp [h]

/-- Shared characterisation: getOnHand is the sum of signed quantities over
the movements whose ledger key equals the query key. -/
lemma getOnHand_eq_filterSum (l : List StockRow) (itemId : ID) (chefId : Option ID) :
    getOnHand l itemId chefId
      = ((l.filter (fun mv => matchesKey mv itemId chefId)).map signedQty).sum := by
  unfold getOnHand onHandByKey matchesKey
  rw [foldl_foldStep_getD]
  simp

lemma takeWhile_all_append {α : Type} (p : α → Bool) (u : List α) (y : α) (v : List α)
    (hu : ∀ x ∈ u, p x = true) (hy : p y = false) :
    (u ++ y :: v).takeWhile p = u := by
  induction u with
  | nil => simp [List.takeWhile, hy]
  | cons a t ih =>
    have ha : p a = true := hu a (by simp)
    simp only [List.cons_append, List.takeWhile, ha]
    exact congrArg _ (ih fun x hx => hu x (by simp [hx]))

lemma safe_key_ne (c A B : String) (hc : SafeChefId c) :
    c ++ "::" ++ B ≠ "warehouse" ++ "::" ++ A := by
  intro h
  have hd := congrArg String.data h
  rw [String.data_append, String.data_append, String.data_append, String.data_append] at hd
  have hcolon2 : ("::" : String).data = [':', ':'] := rfl
  rw [hcolon2] at hd
  have hL : ((c.data ++ [':', ':']) ++ B.data).takeWhile (fun ch => ch != ':') = c.data := by
    rw [List.append_assoc]
    exact takeWhile_all_append _ _ _ _
      (fun x hx => by simpa using hc.2 x hx) (by decide)
  have hR : ((("warehouse" : String).data ++ [':', ':']) ++ A.data).takeWhile
      (fun ch => ch != ':') = ("warehouse" : String).data := by
    rw [List.append_assoc]
    exact takeWhile_all_append _ _ _ _ (by decide) (by decide)
  rw [hd, hR] at hL
  exact hc.1 (String.ext hL.symm)

lemma warehouse_movement_no_chef_match (mv : StockRow) (itemId : ID) (c : String)
    (hmv : mv.chefId = none) (hc : SafeChefId c) :
    matchesKey mv itemId (some c) = false := by
  simp only [matchesKey, movementKey, queryKey, hmv, Option.getD_none, Option.getD_some,
    beq_eq_false_iff_ne, ne_eq]
  exact fun h => safe_key_ne c mv.itemId itemId hc h.symm

lemma chef_movement_no_warehouse_match (mv : StockRow) (itemId : ID) (c : String)
    (hmv : mv.chefId = some c) (hc : SafeChefId c) :
    matchesKey mv itemId none = false := by
  simp only [matchesKey, movementKey, queryKey, hmv, Option.getD_none, Option.getD_some,
    beq_eq_false_iff_ne, ne_eq]
  exact safe_key_ne c itemId mv.itemId hc

lemma filter_subpred {α : Type} (p q : α → Bool) (l : List α)
    (h : ∀ a ∈ l, q a = true → p a = true) :
    (l.filter p).filter q = l.filter q := by
  induction l with
  | nil => rfl
  | cons a t ih =>
    have ht : ∀ x ∈ t, q x = true → p x = true := fun x hx => h x (by simp [hx])
    by_cases hp : p a = true
    · by_cases hq : q a = true
      · simp [List.filter_cons, hp, hq, ih ht]
      · simp [List.filter_cons, hp, Bool.eq_false_iff.2 hq, ih ht]
    · have hq : q a = false := by
        cases hqa : q a
        · rfl
        · exact absurd (h a (by simp) hqa) hp
      simp [List.filter_cons, Bool.eq_false_iff.2 hp, hq, ih ht]

lemma replay_lengths (p : Profile) (ops : List RecordOp) (st : AppState) :
    (replay p ops st).movements.length = st.movements.length + ops.length
      ∧ (replay p ops st).audit.length = st.audit.length + ops.length := by
  induction ops generalizing st with
  | nil => simp [replay]
  | cons op t ih =>
    simp only [replay, List.foldl_cons, handleRecordMovement, addMovement, log,
      List.length_cons] at ih ⊢
    have := ih (AppState.mk
      ({ id := op.mvId, itemId := op.payload.itemId, vendorId := op.payload.vendorId,
         type := op.payload.type, quantity := op.payload.quantity,
         unitCost := op.payload.unitCost, timestamp := op.mvTs,
         note := op.payload.note, chefId := op.payload.chefId } :: st.movements)
      ({ id := op.auId, actor := p.id, action := movementAction op.payload.type,
         timestamp := op.auTs,
         scope := if isTruthy op.payload.chefId then Scope.chef else Scope.founder,
         chefId := op.payload.chefId, refId := some op.mvId } :: st.audit))
    simp only [List.length_cons] at this
    omega

/-! ### Claim theorems -/

/-- C1: for every movement list and every (itemId, owner) pair, getOnHand
equals the sum, over all movements matching that (itemId, owner) key, of
sign(kind) * quantity, with sign(IN) = 1, sign(OUT) = -1, sign(ADJUST) = 0. -/
theorem onHand_is_signed_sum (l : List StockRow) (itemId : ID) (owner : Option ID) :
    getOnHand l itemId owner
      = ((l.filter (fun mv => matchesKey mv itemId owner)).map
          (fun mv => sign mv.type * mv.quantity)).sum := by
  rw [getOnHand_eq_filterSum]
  rfl

/-- C2: getOnHand is invariant under permutation of the movement list: the
fold is order-independent. -/
theorem onHand_perm_invariant (l1 l2 : List StockRow) (h : l1.Perm l2)
    (itemId : ID) (owner : Option ID) :
    getOnHand l1 itemId owner = getOnHand l2 itemId owner := by
  rw [getOnHand_eq_filterSum, getOnHand_eq_filterSum]
  exact List.Perm.sum_eq ((h.filter _).map signedQty)

/-- Witness for C2 at a concrete two-element swap. -/
theorem onHand_perm_invariant_witness :
    ([rowW, rowA].Perm [rowA, rowW])
      ∧ getOnHand [rowW, rowA] "cnt_200ml" none = getOnHand [rowA, rowW] "cnt_200ml" none :=
  ⟨List.Perm.swap rowA rowW [],
   onHand_perm_invariant _ _ (List.Perm.swap rowA rowW []) "cnt_200ml" none⟩

/-- C3 counterexample: a movement whose owner is null does contribute to
getOnHand(itemId, c) for the chef id c = "warehouse", because the key
encodes a null owner as that very string. -/
theorem owner_partition_cex :
    rowW.chefId = none
      ∧ getOnHand [rowW] "cnt_200ml" (some "warehouse") = 120
      ∧ getOnHand [] "cnt_200ml" (some "warehouse") = 0 := by
  refine ⟨rfl, ?_, rfl⟩
  simp [getOnHand, onHandByKey, foldStep, mapSet, movementKey, queryKey, rowW, sign]

/-- C3 amended: for a chef id that is not the literal "warehouse" and
contains no colon, owner-null movements never contribute to that chef's
balance, and movements owned by such chefs never contribute to the
warehouse balance: dropping the respective movements leaves getOnHand
unchanged. -/
theorem owner_partition_amended (l : List StockRow) (itemId : ID) (c : String)
    (hc : SafeChefId c)
    (hl : ∀ mv ∈ l, ∀ c2, mv.chefId = some c2 → SafeChefId c2) :
    getOnHand (l.filter (fun mv => mv.chefId.isSome)) itemId (some c)
        = getOnHand l itemId (some c)
      ∧ getOnHand (l.filter (fun mv => mv.chefId.isNone)) itemId none
        = getOnHand l itemId none := by
  constructor
  · rw [getOnHand_eq_filterSum, getOnHand_eq_filterSum,
      filter_subpred (fun mv => mv.chefId.isSome) (fun mv => matchesKey mv itemId (some c)) l]
    intro mv hmv hq
    cases hcid : mv.chefId with
    | none =>
      rw [warehouse_movement_no_chef_match mv itemId c hcid hc] at hq
      exact absurd hq (by simp)
    | some c2 => simp [hcid]
  · rw [getOnHand_eq_filterSum, getOnHand_eq_filterSum,
      filter_subpred (fun mv => mv.chefId.isNone) (fun mv => matchesKey mv itemId none) l]
    intro mv hmv hq
    cases hcid : mv.chefId with
    | none => simp [hcid]
    | some c2 =>
      rw [chef_movement_no_warehouse_match mv itemId c2 hcid (hl mv hmv c2 hcid)] at hq
      exact absurd hq (by simp)

/-- Witness for the amended C3 at a concrete ledger. -/
theorem owner_partition_amended_witness :
    SafeChefId "chef_a"
      ∧ (∀ mv ∈ [rowW, rowA], ∀ c2, mv.chefId = some c2 → SafeChefId c2)
      ∧ (getOnHand ([rowW, rowA].filter (fun mv => mv.chefId.isSome))
              "cnt_200ml" (some "chef_a")
            = getOnHand [rowW, rowA] "cnt_200ml" (some "chef_a")
          ∧ getOnHand ([rowW, rowA].filter (fun mv => mv.chefId.isNone)) "cnt_200ml" none
            = getOnHand [rowW, rowA] "cnt_200ml" none) :=
  ⟨by decide, by decide,
   owner_partition_amended [rowW, rowA] "cnt_200ml" "chef_a" (by decide) (by decide)⟩

/-- C9: because a null owner is encoded as the string "warehouse", querying
with the chef id "warehouse" and querying with the null owner read the same
key: the two balances always coincide. -/
theorem onHand_warehouse_alias (l : List StockRow) (itemId : ID) :
    getOnHand l itemId (some "warehouse") = getOnHand l itemId none := rfl

/-- C10: when no movement in the ledger matches the queried (itemId, owner)
key, getOnHand returns 0. -/
theorem onHand_unmatched_zero (l : List StockRow) (itemId : ID) (owner : Option ID)
    (h : ∀ mv ∈ l, matchesKey mv itemId owner = false) :
    getOnHand l itemId owner = 0 := by
  rw [getOnHand_eq_filterSum]
  have hnil : l.filter (fun mv => matchesKey mv itemId owner) = [] := by
    rw [List.filter_eq_nil_iff]
    intro a ha
    simp [h a ha]
  rw [hnil]
  rfl

/-- Witness for C10: an item that appears in no movement yields 0. -/
theorem onHand_unmatched_zero_witness :
    (∀ mv ∈ [rowW, rowA], matchesKey mv "cnt_999ml" (some "chef_a") = false)
      ∧ getOnHand [rowW, rowA] "cnt_999ml" (some "chef_a") = 0 :=
  ⟨by decide, onHand_unmatched_zero [rowW, rowA] "cnt_999ml" (some "chef_a") (by decide)⟩

/-- C4 counterexample: addMovement itself never fails and performs no
validation: called with a non-positive quantity it still appends one
record. -/
theorem validation_cex :
    badInput.quantity ≤ 0
      ∧ (addMovement "mv9" "t9" badInput []).2.length = 1 := by
  constructor
  · norm_num [badInput]
  · rfl

/-- C4 amended: the quantity validation lives in the form submit handler,
not in addMovement: when the parsed quantity is non-finite or ≤ 0,
handleSubmit reports an error message and returns with the movement list
and the audit log unchanged. -/
theorem handleSubmit_rejects_invalid_quantity (profile : Option Profile)
    (mvId mvTs auId auTs : String) (form : MovementFormState) (st : AppState)
    (h : (!form.quantity.isFinite || form.quantity.leZero) = true) :
    (handleSubmit profile mvId mvTs auId auTs form st).1 = st
      ∧ ((handleSubmit profile mvId mvTs auId auTs form st).2).isSome = true := by
  unfold handleSubmit
  by_cases hi : form.itemId = ""
  · simp [hi]
  · simp [hi, h]

/-- Witness for the amended C4: a NaN quantity leaves the state untouched. -/
theorem handleSubmit_rejects_invalid_quantity_witness :
    (!badForm.quantity.isFinite || badForm.quantity.leZero) = true
      ∧ ((handleSubmit none "m" "tm" "a" "ta" badForm
            { movements := [rowW], audit := [entF] }).1
          = { movements := [rowW], audit := [entF] }
        ∧ ((handleSubmit none "m" "tm" "a" "ta" badForm
            { movements := [rowW], audit := [entF] }).2).isSome = true) :=
  ⟨by decide,
   handleSubmit_rejects_invalid_quantity none "m" "tm" "a" "ta" badForm
     { movements := [rowW], audit := [entF] } (by decide)⟩

/-- C5 counterexample: a Home-Chef profile whose chefId is null is shown the
warehouse movements, so a warehouse movement is visible to a Chef. -/
theorem visibility_cex :
    (Profile.mk "u1" "e" "n" (some Role.HomeChef) none).role = some Role.HomeChef
      ∧ rowW.chefId = none
      ∧ visibleMovements (Profile.mk "u1" "e" "n" (some Role.HomeChef) none) [rowW]
          = [rowW] := by
  refine ⟨rfl, rfl, ?_⟩
  simp [visibleMovements, isTruthy, rowW]

/-- C5 amended: for a Home-Chef profile whose chefId is a non-empty string c,
visibleMovements returns exactly the movements owned by c: membership in the
result is equivalent to membership in the input with owner c. -/
theorem visibleMovements_chef_amended (uid em nm c : String) (hc : c ≠ "")
    (l : List StockRow) (mv : StockRow) :
    mv ∈ visibleMovements (Profile.mk uid em nm (some Role.HomeChef) (some c)) l
      ↔ mv ∈ l ∧ mv.chefId = some c := by
  have htruthy : isTruthy (some c) = true := by
    simp [isTruthy]
    exact hc
  simp [visibleMovements, htruthy, List.mem_filter]

/-- Witness for the amended C5 at a concrete ledger. -/
theorem visibleMovements_chef_amended_witness :
    ("chef_a" : String) ≠ ""
      ∧ (rowA ∈ visibleMovements (Profile.mk "u1" "e" "n" (some Role.HomeChef)
            (some "chef_a")) [rowW, rowA, rowB]
          ↔ rowA ∈ [rowW, rowA, rowB] ∧ rowA.chefId = some "chef_a") :=
  ⟨by decide,
   visibleMovements_chef_amended "u1" "e" "n" "chef_a" (by decide) [rowW, rowA, rowB] rowA⟩

/-- C6 counterexample: a Home-Chef user also sees founder-scope audit
entries, so the partition logic is not the same as for movements. -/
theorem audit_visibility_cex :
    entF.scope = Scope.founder
      ∧ entF.chefId = none
      ∧ visibleAudit (Profile.mk "u1" "e" "n" (some Role.HomeChef) (some "chef_a")) [entF]
          = [entF] := by
  refine ⟨rfl, rfl, ?_⟩
  simp [visibleAudit, isTruthy, entF]

/-- C6 amended: a Founder sees every audit entry, and a Home-Chef profile
with a non-empty chefId c sees exactly the entries whose chefId is c or
whose scope is founder. -/
theorem visibleAudit_amended (uid em nm c : String) (hc : c ≠ "")
    (l : List AuditEntry) :
    (∀ fp : Profile, fp.role = some Role.Founder → visibleAudit fp l = l)
      ∧ ∀ e : AuditEntry,
          e ∈ visibleAudit (Profile.mk uid em nm (some Role.HomeChef) (some c)) l
            ↔ e ∈ l ∧ (e.chefId = some c ∨ e.scope = Scope.founder) := by
  constructor
  · intro fp hfp
    simp [visibleAudit, hfp]
  · intro e
    have htruthy : isTruthy (some c) = true := by
      simp [isTruthy]
      exact hc
    simp [visibleAudit, htruthy, List.mem_filter]

/-- Witness for the amended C6 at a concrete audit log. -/
theorem visibleAudit_amended_witness :
    ("chef_a" : String) ≠ ""
      ∧ (entF ∈ visibleAudit (Profile.mk "u1" "e" "n" (some Role.HomeChef)
            (some "chef_a")) [entF, entA, entB]
          ↔ entF ∈ [entF, entA, entB]
            ∧ (entF.chefId = some "chef_a" ∨ entF.scope = Scope.founder)) :=
  ⟨by decide,
   (visibleAudit_amended "u1" "e" "n" "chef_a" (by decide) [entF, entA, entB]).2 entF⟩

/-- C7: the ledger never rejects an OUT movement: addMovement appends exactly
one record and the balance of the affected (item, owner) key drops by the
quantity, with no non-negativity guard. -/
theorem out_movement_unguarded (l : List StockRow) (freshId ts : String)
    (input : MovementInput) (hk : input.type = MovementType.OUT)
    (hq : 0 < input.quantity) :
    (addMovement freshId ts input l).2.length = l.length + 1
      ∧ getOnHand (addMovement freshId ts input l).2 input.itemId input.chefId
          = getOnHand l input.itemId input.chefId - input.quantity := by
  constructor
  · rfl
  · rw [getOnHand_eq_filterSum, getOnHand_eq_filterSum]
    have hlist : (addMovement freshId ts input l).2
        = (addMovement freshId ts input l).1 :: l := rfl
    rw [hlist, List.filter_cons]
    have hmatch : matchesKey (addMovement freshId ts input l).1
        input.itemId input.chefId = true := by
      simp [matchesKey, addMovement, movementKey, queryKey]
    rw [hmatch]
    simp only [if_true, List.map_cons, List.sum_cons]
    have hsq : signedQty (addMovement freshId ts input l).1 = -input.quantity := by
      simp [signedQty, addMovement, hk, sign]
    rw [hsq]
    ring

/-- Witness for C7: a prior balance of 10 followed by OUT 100 yields -90. -/
theorem out_movement_unguarded_witness :
    outBig.type = MovementType.OUT
      ∧ (0 : ℚ) < outBig.quantity
      ∧ ((addMovement "m2" "t2" outBig [seedIn]).2.length = [seedIn].length + 1
          ∧ getOnHand (addMovement "m2" "t2" outBig [seedIn]).2 outBig.itemId outBig.chefId
            = getOnHand [seedIn] outBig.itemId outBig.chefId - outBig.quantity)
      ∧ getOnHand (addMovement "m2" "t2" outBig [seedIn]).2 "x" none = -90 := by
  refine ⟨rfl, by norm_num [outBig], out_movement_unguarded [seedIn] "m2" "t2" outBig rfl
    (by norm_num [outBig]), ?_⟩
  simp [getOnHand, onHandByKey, foldStep, mapSet, movementKey, queryKey, addMovement,
    outBig, seedIn, sign]
  norm_num

/-- C8: a successful handleRecordMovement appends exactly one movement and
exactly one audit entry whose refId is the new movement's id, and replaying
N successful recordings from the empty state leaves exactly N audit entries
and N movements. -/
theorem recordMovement_audit_parity (p : Profile) (mvId mvTs auId auTs : String)
    (payload : MovementInput) (st : AppState) :
    (∃ mv entry,
        handleRecordMovement (some p) mvId mvTs auId auTs payload st
            = Except.ok { movements := mv :: st.movements, audit := entry :: st.audit }
          ∧ entry.refId = some mv.id)
      ∧ ∀ ops : List RecordOp,
          (replay p ops { movements := [], audit := [] }).audit.length = ops.length
            ∧ (replay p ops { movements := [], audit := [] }).movements.length
              = ops.length := by
  constructor
  · exact ⟨_, _, rfl, rfl⟩
  · intro ops
    have h := replay_lengths p ops { movements := [], audit := [] }
    simp only [List.length_nil, Nat.zero_add] at h
    exact ⟨h.2, h.1⟩

end VendorInventory
